import Mathlib

/-!
# Verification of the pokebot monitoring engine and secret vault

A shallow embedding, in Lean 4, of the core of the repository:

* the encrypted secret vault (`src/crypto/vault.ts`),
* the stock-transition detector (`src/monitor/state.ts`),
* the anti-bot detection classifier (`src/browser/detection.ts`),
* the poll loop with its cooldown/backoff state (`src/monitor/poller.ts`),
* the history sink (`src/monitor/history.ts`),
* the account store (`src/store/accounts.ts`).

Byte buffers (`node:Buffer`) are modelled as `List Nat`; the base64
transport encoding (`Buffer.toString('base64')` / `Buffer.from(_, 'base64')`)
and UTF-8 text encoding are external Node library bijections applied at the
boundary, so definitions here work on the decoded byte sequences directly.

The cryptographic primitives used by the vault (`scryptSync` and
AES-256-GCM from `node:crypto`) are external library code; they are
modelled as an abstract authenticated-encryption scheme, an `Aead`
bundle whose `Prop` fields state the documented contract of an ideal
AEAD cipher with an ideal KDF (decryption inverts encryption, a record
authenticates only under the key, nonce and plaintext that produced it,
key derivation is collision-free).  The vault theorems are proved for
every such bundle, and a concrete executable instance `idealAead` is
provided so that the theorems can be evaluated on explicit inputs.
-/

namespace Pokebot

/-- A byte buffer (`Buffer` in the source); entries are the byte values. -/
abbrev Bytes := List Nat

/-! ## Vault (src/crypto/vault.ts)

```ts
const SALT_LEN = 32; const IV_LEN = 12; const TAG_LEN = 16; const KEY_LEN = 32;
```
-/

def SALT_LEN : Nat := 32

def IV_LEN : Nat := 12

def TAG_LEN : Nat := 16

/-- The external cryptographic collaborators of the vault, as an abstract
authenticated-encryption scheme: `kdf` models `scryptSync(password, salt, 32)`,
`encCore`/`decCore` model the AES-256-GCM cipher core
(`createCipheriv`/`createDecipheriv` with `getAuthTag`/`setAuthTag`).
`encCore key iv plaintext` returns `(ciphertext, authTag)`; `decCore key iv
ciphertext authTag` returns the plaintext or fails.  The `Prop` fields are the
idealised AEAD/KDF contract. -/
structure Aead where
  Key : Type
  kdf : String → Bytes → Key
  encCore : Key → Bytes → Bytes → Bytes × Bytes
  decCore : Key → Bytes → Bytes → Bytes → Option Bytes
  /-- GCM authentication tags are 16 bytes. -/
  tag_len : ∀ k iv p, (encCore k iv p).2.length = TAG_LEN
  /-- Decryption inverts encryption under the same key and nonce. -/
  dec_enc : ∀ k iv p, decCore k iv (encCore k iv p).1 (encCore k iv p).2 = some p
  /-- Decryption succeeds only on the exact (ciphertext, tag) pair produced by
  encryption of the returned plaintext (INT-CTXT, idealised as absolute). -/
  dec_auth : ∀ k iv c t q, decCore k iv c t = some q →
    c = (encCore k iv q).1 ∧ t = (encCore k iv q).2
  /-- The tag binds the key, the nonce and the plaintext (ideal MAC:
  no tag collisions across keys, nonces or plaintexts). -/
  tag_binds : ∀ k k' iv iv' p p', (encCore k iv p).2 = (encCore k' iv' p').2 →
    k = k' ∧ iv = iv' ∧ p = p'
  /-- Ciphertexts determine the plaintext under a fixed key and nonce. -/
  ct_inj : ∀ k iv p p', (encCore k iv p).1 = (encCore k iv p').1 → p = p'
  /-- Key derivation is collision-free (ideal scrypt). -/
  kdf_inj : ∀ pass pass' salt salt', kdf pass salt = kdf pass' salt' →
    pass = pass' ∧ salt = salt'

/-- `encrypt(plaintext, masterPassword)` from `src/crypto/vault.ts`.
The two `randomBytes` draws are passed in as the `salt` and `iv` arguments;
the result is the byte buffer `salt ‖ iv ‖ authTag ‖ ciphertext`
(the source then base64-encodes it, an external bijection). -/
def encrypt (A : Aead) (plaintext : Bytes) (masterPassword : String)
    (salt iv : Bytes) : Bytes :=
  let key := A.kdf masterPassword salt
  let ct := A.encCore key iv plaintext
  salt ++ iv ++ ct.2 ++ ct.1

/-- `decrypt(encoded, masterPassword)` from `src/crypto/vault.ts`, on the
base64-decoded buffer: slice `salt`, `iv`, `authTag`, `ciphertext` at the
fixed offsets (`Buffer.subarray`, which clamps like `take`/`drop`), rederive
the key from the embedded salt, and run the authenticated decryption;
`none` models the thrown authentication error. -/
def decrypt (A : Aead) (encoded : Bytes) (masterPassword : String) : Option Bytes :=
  let salt := encoded.take SALT_LEN
  let iv := (encoded.drop SALT_LEN).take IV_LEN
  let authTag := (encoded.drop (SALT_LEN + IV_LEN)).take TAG_LEN
  let ciphertext := encoded.drop (SALT_LEN + IV_LEN + TAG_LEN)
  let key := A.kdf masterPassword salt
  A.decCore key iv ciphertext authTag

/-! ### A concrete ideal instance, used to evaluate the vault theorems. -/

/-- Injective code of a byte list into one natural number. -/
def listCode (l : Bytes) : Nat :=
  l.foldr (fun a r => Nat.pair a r + 1) 0

/-- Injective code of a string into one natural number. -/
def strCode (s : String) : Nat :=
  listCode (s.data.map Char.toNat)

theorem listCode_injective : Function.Injective listCode := by
  intro l l' h
  induction l generalizing l' with
  | nil =>
    cases l' with
    | nil => rfl
    | cons a t => simp [listCode] at h
  | cons a t ih =>
    cases l' with
    | nil => simp [listCode] at h
    | cons a' t' =>
      simp only [listCode, List.foldr_cons, Nat.add_right_cancel_iff] at h
      obtain ⟨h1, h2⟩ := Nat.pair_eq_pair.mp h
      exact congrArg₂ List.cons h1 (ih h2)

theorem charToNat_injective : Function.Injective Char.toNat := by
  intro a b h
  exact Char.eq_of_val_eq (UInt32.eq_of_val_eq (Fin.val_injective h))

theorem strCode_injective : Function.Injective strCode := by
  intro s t h
  have hdata : s.data = t.data :=
    List.map_injective_iff.mpr charToNat_injective (listCode_injective h)
  cases s; cases t; exact congrArg String.mk hdata

/-- The authentication tag of the ideal instance: 16 bytes whose first entry
injectively codes the key, the nonce and the plaintext. -/
def idealTag (k : String × Bytes) (iv p : Bytes) : Bytes :=
  Nat.pair (strCode k.1)
    (Nat.pair (listCode k.2) (Nat.pair (listCode iv) (listCode p))) :: List.replicate 15 0

/-- A concrete `Aead` bundle satisfying the ideal contract (the "cipher"
is the identity on bytes — only the authentication structure matters for
the vault claims, not secrecy). -/
def idealAead : Aead where
  Key := String × Bytes
  kdf := fun pass salt => (pass, salt)
  encCore := fun k iv p => (p, idealTag k iv p)
  decCore := fun k iv c t => if t = idealTag k iv c then some c else none
  tag_len := by intro k iv p; simp [idealTag, TAG_LEN]
  dec_enc := by intro k iv p; simp
  dec_auth := by
    intro k iv c t q h
    by_cases ht : t = idealTag k iv c
    · simp [ht] at h
      exact ⟨h ▸ rfl, by rw [ht, h]⟩
    · simp [ht] at h
  tag_binds := by
    intro k k' iv iv' p p' h
    simp only [idealTag, List.cons.injEq] at h
    obtain ⟨h1, h2⟩ := Nat.pair_eq_pair.mp h.1
    obtain ⟨h3, h4⟩ := Nat.pair_eq_pair.mp h2
    obtain ⟨h5, h6⟩ := Nat.pair_eq_pair.mp h4
    exact ⟨Prod.ext (strCode_injective h1) (listCode_injective h3),
      listCode_injective h5, listCode_injective h6⟩
  ct_inj := by intro k iv p p' h; exact h
  kdf_inj := by
    intro pass pass' salt salt' h
    exact ⟨congrArg Prod.fst h, congrArg Prod.snd h⟩

/-- Slicing the record `salt ‖ iv ‖ tag ‖ ct` at the vault's fixed offsets
recovers the four components. -/
theorem record_slices (s i t c : Bytes) (hs : s.length = SALT_LEN)
    (hi : i.length = IV_LEN) (ht : t.length = TAG_LEN) :
    (s ++ i ++ t ++ c).take SALT_LEN = s
    ∧ ((s ++ i ++ t ++ c).drop SALT_LEN).take IV_LEN = i
    ∧ ((s ++ i ++ t ++ c).drop (SALT_LEN + IV_LEN)).take TAG_LEN = t
    ∧ (s ++ i ++ t ++ c).drop (SALT_LEN + IV_LEN + TAG_LEN) = c := by
  have hassoc : s ++ i ++ t ++ c = s ++ (i ++ (t ++ c)) := by
    simp [List.append_assoc]
  rw [hassoc]
  have h1 : (s ++ (i ++ (t ++ c))).drop SALT_LEN = i ++ (t ++ c) := List.drop_left' hs
  have h2 : (s ++ (i ++ (t ++ c))).drop (SALT_LEN + IV_LEN) = t ++ c := by
    rw [← List.drop_drop, h1]
    exact List.drop_left' hi
  have h3 : (s ++ (i ++ (t ++ c))).drop (SALT_LEN + IV_LEN + TAG_LEN) = c := by
    rw [← List.drop_drop, h2]
    exact List.drop_left' ht
  exact ⟨List.take_left' hs, by rw [h1]; exact List.take_left' hi,
    by rw [h2]; exact List.take_left' ht, h3⟩

/-- C1.  Vault round-trip: for every plaintext `P` and passphrase `K`
(and every pair of fresh random draws for the 32-byte salt and 12-byte IV),
`decrypt(encrypt(P, K), K)` returns exactly `P`. -/
theorem vault_round_trip (A : Aead) (p : Bytes) (pass : String) (salt iv : Bytes)
    (hs : salt.length = SALT_LEN) (hiv : iv.length = IV_LEN) :
    decrypt A (encrypt A p pass salt iv) pass = some p := by
  have hsl := record_slices salt iv (A.encCore (A.kdf pass salt) iv p).2
    (A.encCore (A.kdf pass salt) iv p).1 hs hiv (A.tag_len _ _ _)
  unfold decrypt encrypt
  simp only [hsl.1, hsl.2.1, hsl.2.2.1, hsl.2.2.2]
  exact A.dec_enc _ _ _

/-- C1 witness: the round trip evaluated on a concrete plaintext, passphrase
and random draws. -/
theorem vault_round_trip_witness :
    decrypt idealAead
      (encrypt idealAead [104, 105] "hunter2" (List.replicate 32 7) (List.replicate 12 3))
      "hunter2" = some [104, 105] :=
  vault_round_trip idealAead [104, 105] "hunter2" (List.replicate 32 7)
    (List.replicate 12 3) (by simp [SALT_LEN]) (by simp [IV_LEN])

/-- Decrypting a well-formed frame `salt ‖ iv ‖ tag ‖ ct` runs the cipher core
on the embedded components, under the key rederived from the embedded salt. -/
theorem decrypt_frame (A : Aead) (s i t c : Bytes) (pass' : String)
    (hs : s.length = SALT_LEN) (hi : i.length = IV_LEN) (ht : t.length = TAG_LEN) :
    decrypt A (s ++ i ++ t ++ c) pass' = A.decCore (A.kdf pass' s) i c t := by
  have hsl := record_slices s i t c hs hi ht
  unfold decrypt
  rw [hsl.1, hsl.2.1, hsl.2.2.1, hsl.2.2.2]

/-- Overwriting one byte of the tag-or-ciphertext region of a record
rewrites the corresponding byte of the tag, or of the ciphertext. -/
theorem set_record (s i t c : Bytes) (hs : s.length = SALT_LEN)
    (hi : i.length = IV_LEN) (ht : t.length = TAG_LEN)
    (n : Nat) (b : Nat) (hn : SALT_LEN + IV_LEN ≤ n) :
    (s ++ i ++ t ++ c).set n b =
      if n - (SALT_LEN + IV_LEN) < TAG_LEN
      then s ++ i ++ t.set (n - (SALT_LEN + IV_LEN)) b ++ c
      else s ++ i ++ t ++ c.set (n - (SALT_LEN + IV_LEN + TAG_LEN)) b := by
  have hsi : (s ++ i).length = SALT_LEN + IV_LEN := by
    rw [List.length_append, hs, hi]
  have hsit : (s ++ i ++ t).length = SALT_LEN + IV_LEN + TAG_LEN := by
    rw [List.length_append, hsi, ht]
  by_cases hcase : n - (SALT_LEN + IV_LEN) < TAG_LEN
  · have hlt : n < (s ++ i ++ t).length := by rw [hsit]; omega
    have hge : ¬ n < (s ++ i).length := by rw [hsi]; omega
    rw [if_pos hcase, List.set_append, if_pos hlt, List.set_append, if_neg hge, hsi]
  · have hlt : ¬ n < (s ++ i ++ t).length := by rw [hsit]; omega
    rw [if_neg hcase, List.set_append, if_neg hlt, hsit]

/-- Reading a byte of the tag-or-ciphertext region of a record. -/
theorem get_record (s i t c : Bytes) (hs : s.length = SALT_LEN)
    (hi : i.length = IV_LEN) (ht : t.length = TAG_LEN)
    (n : Nat) (hn : SALT_LEN + IV_LEN ≤ n) (hlt : n < (s ++ i ++ t ++ c).length) :
    (s ++ i ++ t ++ c).get ⟨n, hlt⟩ =
      if hc : n - (SALT_LEN + IV_LEN) < TAG_LEN
      then t.get ⟨n - (SALT_LEN + IV_LEN), by rw [ht]; exact hc⟩
      else c.get ⟨n - (SALT_LEN + IV_LEN + TAG_LEN), by
        have h := hlt
        simp only [List.length_append, hs, hi, ht] at h
        omega⟩ := by
  have hsi : (s ++ i).length = SALT_LEN + IV_LEN := by
    rw [List.length_append, hs, hi]
  have hsit : (s ++ i ++ t).length = SALT_LEN + IV_LEN + TAG_LEN := by
    rw [List.length_append, hsi, ht]
  by_cases hc : n - (SALT_LEN + IV_LEN) < TAG_LEN
  · rw [dif_pos hc]
    simp only [List.get_eq_getElem]
    rw [List.getElem_append_left (by rw [hsit]; omega)]
    rw [List.getElem_append_right (by rw [hsi]; omega)]
    simp only [hsi]
  · rw [dif_neg hc]
    simp only [List.get_eq_getElem]
    rw [List.getElem_append_right (by rw [hsit]; omega)]
    simp only [hsit]

/-- Writing a genuinely different value into a list changes it. -/
theorem set_ne_self (l : Bytes) (n b : Nat) (hn : n < l.length)
    (hb : b ≠ l.get ⟨n, hn⟩) : l.set n b ≠ l := by
  intro h
  apply hb
  have h2 : b = (l.set n b).get ⟨n, by simpa using hn⟩ := by simp
  rw [h2]
  simp only [List.get_eq_getElem]
  simp only [h]

/-- C2.  Vault fail-closed: decrypting a record produced by
`encrypt(P, K)` with any passphrase other than `K` fails, and decrypting a
record in which any single byte of the authentication tag or of the
ciphertext has been altered fails — no plaintext (in particular no altered
plaintext) is ever returned. -/
theorem vault_fail_closed (A : Aead) (p : Bytes) (pass pass' : String)
    (salt iv : Bytes) (hs : salt.length = SALT_LEN) (hiv : iv.length = IV_LEN) :
    (pass' ≠ pass → decrypt A (encrypt A p pass salt iv) pass' = none)
    ∧ (∀ n b, SALT_LEN + IV_LEN ≤ n →
        ∀ hlt : n < (encrypt A p pass salt iv).length,
        b ≠ (encrypt A p pass salt iv).get ⟨n, hlt⟩ →
        decrypt A ((encrypt A p pass salt iv).set n b) pass = none) := by
  set k := A.kdf pass salt with hk
  set ct := (A.encCore k iv p).1 with hct
  set tag := (A.encCore k iv p).2 with htag
  have htlen : tag.length = TAG_LEN := A.tag_len _ _ _
  have henc : encrypt A p pass salt iv = salt ++ iv ++ tag ++ ct := rfl
  constructor
  · intro hne
    rw [henc, decrypt_frame A salt iv tag ct pass' hs hiv htlen]
    cases hq : A.decCore (A.kdf pass' salt) iv ct tag with
    | none => rfl
    | some q =>
      exfalso
      have hauth := A.dec_auth _ _ _ _ _ hq
      have hbind := A.tag_binds _ _ _ _ _ _ (htag.symm ▸ hauth.2.symm)
      exact hne (A.kdf_inj _ _ _ _ hbind.1).1
  · intro n b hge hlt hb
    have hlt' : n < (salt ++ iv ++ tag ++ ct).length := hlt
    have hb' : b ≠ (salt ++ iv ++ tag ++ ct).get ⟨n, hlt'⟩ := hb
    show decrypt A ((salt ++ iv ++ tag ++ ct).set n b) pass = none
    rw [set_record salt iv tag ct hs hiv htlen n b hge]
    rw [get_record salt iv tag ct hs hiv htlen n hge hlt'] at hb'
    by_cases hc : n - (SALT_LEN + IV_LEN) < TAG_LEN
    · -- the altered byte lies in the authentication tag
      rw [if_pos hc]
      rw [dif_pos hc] at hb'
      rw [decrypt_frame A salt iv _ ct pass hs hiv (by simp [htlen])]
      cases hq : A.decCore k iv ct (tag.set (n - (SALT_LEN + IV_LEN)) b) with
      | none => rfl
      | some q =>
        exfalso
        have hauth := A.dec_auth _ _ _ _ _ hq
        have hqp : q = p := A.ct_inj _ _ _ _ (hauth.1.symm.trans hct)
        have heq : tag.set (n - (SALT_LEN + IV_LEN)) b = tag := by
          rw [hauth.2, hqp, ← htag]
        exact set_ne_self tag _ b (by rw [htlen]; exact hc) hb' heq
    · -- the altered byte lies in the ciphertext
      rw [if_neg hc]
      rw [dif_neg hc] at hb'
      rw [decrypt_frame A salt iv tag _ pass hs hiv htlen]
      cases hq : A.decCore k iv (ct.set (n - (SALT_LEN + IV_LEN + TAG_LEN)) b) tag with
      | none => rfl
      | some q =>
        exfalso
        have hauth := A.dec_auth _ _ _ _ _ hq
        have hbind := A.tag_binds _ _ _ _ _ _ (htag.symm ▸ hauth.2.symm)
        have hqp : q = p := hbind.2.2
        have heq : ct.set (n - (SALT_LEN + IV_LEN + TAG_LEN)) b = ct := by
          rw [hauth.1, hqp, ← hct]
        refine set_ne_self ct _ b ?_ hb' heq
        have hlen := hlt'
        simp only [List.length_append, hs, hiv, htlen] at hlen
        omega

/-- The length of an encrypted record is 60 bytes of header plus the
ciphertext length. -/
theorem encrypt_length (A : Aead) (p : Bytes) (pass : String) (salt iv : Bytes) :
    (encrypt A p pass salt iv).length =
      salt.length + iv.length + TAG_LEN +
        (A.encCore (A.kdf pass salt) iv p).1.length := by
  simp only [encrypt, List.length_append, A.tag_len]

/-- Bounds for the byte position used in the C2 witness. -/
theorem encrypt_length_lb :
    SALT_LEN + IV_LEN ≤ 44 ∧
    44 < (encrypt idealAead [104] "hunter2" (List.replicate 32 7)
      (List.replicate 12 3)).length := by
  constructor
  · norm_num [SALT_LEN, IV_LEN]
  · rw [encrypt_length]
    simp only [List.length_replicate, TAG_LEN]
    omega

/-- C2 witness: on a concrete record, decryption under a wrong passphrase
fails, and decryption after overwriting byte 44 (the first tag byte) with a
different value fails. -/
theorem vault_fail_closed_witness :
    decrypt idealAead
      (encrypt idealAead [104] "hunter2" (List.replicate 32 7) (List.replicate 12 3))
      "letmein" = none
    ∧ decrypt idealAead
      ((encrypt idealAead [104] "hunter2" (List.replicate 32 7) (List.replicate 12 3)).set 44
        ((encrypt idealAead [104] "hunter2" (List.replicate 32 7)
          (List.replicate 12 3)).get ⟨44, encrypt_length_lb.2⟩ + 1))
      "hunter2" = none :=
  ⟨(vault_fail_closed idealAead [104] "hunter2" "letmein" (List.replicate 32 7)
      (List.replicate 12 3) (by simp [SALT_LEN]) (by simp [IV_LEN])).1
    (by simp),
   (vault_fail_closed idealAead [104] "hunter2" "hunter2" (List.replicate 32 7)
      (List.replicate 12 3) (by simp [SALT_LEN]) (by simp [IV_LEN])).2
    44 _ encrypt_length_lb.1 encrypt_length_lb.2 (by omega)⟩

/-! ## Transition detector (src/monitor/state.ts) -/

/-- `StockStatus` from `src/monitor/state.ts`. -/
inductive StockStatus
  | in_stock
  | out_of_stock
  | pre_order
  | coming_soon
  | unknown
  deriving DecidableEq, Repr

/-- `StockState` from `src/monitor/state.ts` (nullable fields become
`Option`, ISO timestamp strings stay strings). -/
structure StockState where
  url : String
  status : StockStatus
  price : Option String
  title : Option String
  lastChecked : String
  lastTransition : Option String
  deriving DecidableEq, Repr

/-- `TransitionType` from `src/monitor/state.ts`. -/
inductive TransitionType
  | restock
  | sold_out
  | none
  deriving DecidableEq, Repr

/-- `isAvailable(status)` — `status === 'in_stock'`. -/
def isAvailable (status : StockStatus) : Bool :=
  decide (status = StockStatus.in_stock)

/-- `detectTransition(previous, current)` from `src/monitor/state.ts`. -/
def detectTransition (previous : Option StockState) (current : StockState) :
    TransitionType :=
  match previous with
  | Option.none =>
    if isAvailable current.status then TransitionType.restock else TransitionType.none
  | Option.some prev =>
    let wasBuyable := isAvailable prev.status
    let isBuyable := isAvailable current.status
    if !wasBuyable && isBuyable then TransitionType.restock
    else if wasBuyable && !isBuyable then TransitionType.sold_out
    else TransitionType.none

/-- C3.  Transition detector: with no previous state the result is `restock`
exactly for a buyable current status and `none` otherwise (never `sold_out`);
with a previous state, `restock` iff not-buyable→buyable, `sold_out` iff
buyable→not-buyable, `none` otherwise — including between distinct
non-buyable statuses such as `pre_order`→`coming_soon`. -/
theorem detectTransition_spec :
    (∀ c : StockState,
      (detectTransition Option.none c = TransitionType.restock ↔
        c.status = StockStatus.in_stock)
      ∧ (c.status ≠ StockStatus.in_stock →
        detectTransition Option.none c = TransitionType.none)
      ∧ detectTransition Option.none c ≠ TransitionType.sold_out)
    ∧ (∀ p c : StockState,
      (detectTransition (Option.some p) c = TransitionType.restock ↔
        p.status ≠ StockStatus.in_stock ∧ c.status = StockStatus.in_stock)
      ∧ (detectTransition (Option.some p) c = TransitionType.sold_out ↔
        p.status = StockStatus.in_stock ∧ c.status ≠ StockStatus.in_stock)
      ∧ (detectTransition (Option.some p) c = TransitionType.none ↔
        (p.status = StockStatus.in_stock ↔ c.status = StockStatus.in_stock))
      ∧ (p.status = StockStatus.pre_order → c.status = StockStatus.coming_soon →
        detectTransition (Option.some p) c = TransitionType.none)) := by
  constructor
  · intro c
    by_cases h : c.status = StockStatus.in_stock <;>
      simp [detectTransition, isAvailable, h]
  · intro p c
    by_cases hp : p.status = StockStatus.in_stock <;>
      by_cases hc : c.status = StockStatus.in_stock <;>
        simp [detectTransition, isAvailable, hp, hc]

/-- A stock state with a given status and placeholder metadata. -/
def sampleState (status : StockStatus) : StockState :=
  { url := "https://example.test/p", status := status, price := Option.none,
    title := Option.none, lastChecked := "2026-01-01T00:00:00Z",
    lastTransition := Option.none }

/-- C3 witness: the four concrete transitions named by the spec. -/
theorem detectTransition_spec_witness :
    detectTransition Option.none (sampleState StockStatus.in_stock)
      = TransitionType.restock
    ∧ detectTransition Option.none (sampleState StockStatus.out_of_stock)
      = TransitionType.none
    ∧ detectTransition (Option.some (sampleState StockStatus.in_stock))
      (sampleState StockStatus.out_of_stock) = TransitionType.sold_out
    ∧ detectTransition (Option.some (sampleState StockStatus.pre_order))
      (sampleState StockStatus.coming_soon) = TransitionType.none :=
  ⟨(detectTransition_spec.1 (sampleState StockStatus.in_stock)).1.mpr rfl,
   (detectTransition_spec.1 (sampleState StockStatus.out_of_stock)).2.1 (by decide),
   (detectTransition_spec.2 (sampleState StockStatus.in_stock)
      (sampleState StockStatus.out_of_stock)).2.1.mpr ⟨rfl, by decide⟩,
   (detectTransition_spec.2 (sampleState StockStatus.pre_order)
      (sampleState StockStatus.coming_soon)).2.2.2 rfl rfl⟩

/-! ## Cooldown/backoff state (src/monitor/poller.ts)

The failure counters live in `startMonitoring`'s closure:
`consecutiveFailures` and `currentCooldownMs`
(initialised to `config.detection.cooldownMs`).
-/

/-- The 30-minute cooldown cap, `30 * 60 * 1000` ms (poller.ts line 273). -/
def COOLDOWN_CAP_MS : Nat := 30 * 60 * 1000

/-- The in-memory backoff counters. -/
structure CooldownState where
  consecutiveFailures : Nat
  currentCooldownMs : Nat
  deriving DecidableEq, Repr

/-- The counter updates of `handleDetectionEvent` (poller.ts lines 264–274):
`consecutiveFailures++`, then, past `config.detection.maxRetries`
consecutive failures, `currentCooldownMs = min(currentCooldownMs * 2, 30min)`. -/
def handleDetectionStep (maxRetries : Nat) (s : CooldownState) : CooldownState :=
  let failures := s.consecutiveFailures + 1
  { consecutiveFailures := failures
    currentCooldownMs :=
      if failures > maxRetries then min (s.currentCooldownMs * 2) COOLDOWN_CAP_MS
      else s.currentCooldownMs }

/-- The reset on a clean fetch (poller.ts lines 191–193):
`consecutiveFailures = 0; currentCooldownMs = config.detection.cooldownMs`. -/
def cleanReset (baseCooldownMs : Nat) (_s : CooldownState) : CooldownState :=
  { consecutiveFailures := 0, currentCooldownMs := baseCooldownMs }

/-- C4.  Backoff growth and reset: starting from `⟨0, base⟩`, after `n`
detection events `consecutiveFailures = n`; the cooldown stays `base` up to
the retry threshold, and beyond it doubles per additional failure, capped at
1,800,000 ms (so it never exceeds the cap); a single clean fetch resets the
state to `⟨0, base⟩`. -/
theorem backoff_spec (m base n : Nat) :
    ((handleDetectionStep m)^[n] ⟨0, base⟩).consecutiveFailures = n
    ∧ (n ≤ m → ((handleDetectionStep m)^[n] ⟨0, base⟩).currentCooldownMs = base)
    ∧ (m < n →
        ((handleDetectionStep m)^[n] ⟨0, base⟩).currentCooldownMs
          = min (base * 2 ^ (n - m)) COOLDOWN_CAP_MS
        ∧ ((handleDetectionStep m)^[n] ⟨0, base⟩).currentCooldownMs ≤ COOLDOWN_CAP_MS)
    ∧ cleanReset base ((handleDetectionStep m)^[n] ⟨0, base⟩) = ⟨0, base⟩ := by
  induction n with
  | zero => exact ⟨rfl, fun _ => rfl, fun h => absurd h (Nat.not_lt_zero m), rfl⟩
  | succ n ih =>
    obtain ⟨ihf, ihlo, ihhi, -⟩ := ih
    rw [Function.iterate_succ_apply']
    refine ⟨?_, ?_, ?_, rfl⟩
    · simp [handleDetectionStep, ihf]
    · intro hle
      have hnotgt : ¬ n + 1 > m := by omega
      simp only [handleDetectionStep, ihf, hnotgt, if_false]
      exact ihlo (by omega)
    · intro hlt
      have hgt : n + 1 > m := hlt
      by_cases hcase : n ≤ m
      · have hcool : ((handleDetectionStep m)^[n] ⟨0, base⟩).currentCooldownMs = base :=
          ihlo hcase
        constructor
        · simp only [handleDetectionStep, ihf, hgt, if_true, hcool]
          have h2 : n + 1 - m = 1 := by omega
          rw [h2, pow_one]
        · simp only [handleDetectionStep, ihf, hgt, if_true]
          exact Nat.min_le_right _ _
      · have hmn : m < n := by omega
        obtain ⟨hcool, -⟩ := ihhi hmn
        constructor
        · simp only [handleDetectionStep, ihf, hgt, if_true, hcool]
          have h1 : min (min (base * 2 ^ (n - m)) COOLDOWN_CAP_MS * 2) COOLDOWN_CAP_MS
              = min (base * 2 ^ (n - m) * 2) COOLDOWN_CAP_MS := by omega
          rw [h1]
          have h2 : n + 1 - m = (n - m) + 1 := by omega
          rw [h2, pow_succ, ← Nat.mul_assoc]
        · simp only [handleDetectionStep, ihf, hgt, if_true]
          exact Nat.min_le_right _ _

/-- C4 witness: threshold 3 and base 300,000 ms (the config defaults): after
5 detection events the counter is 5 and the cooldown is
`min(300000 * 2^2, 1800000) = 1200000` ms; a clean fetch resets. -/
theorem backoff_spec_witness :
    ((handleDetectionStep 3)^[5] ⟨0, 300000⟩).consecutiveFailures = 5
    ∧ ((handleDetectionStep 3)^[5] ⟨0, 300000⟩).currentCooldownMs = 1200000
    ∧ cleanReset 300000 ((handleDetectionStep 3)^[5] ⟨0, 300000⟩) = ⟨0, 300000⟩ := by
  obtain ⟨h1, -, h3, h4⟩ := backoff_spec 3 300000 5
  refine ⟨h1, ?_, h4⟩
  rw [(h3 (by decide)).1]
  decide

/-! ## Detection classifier (src/browser/detection.ts) -/

/-- `DetectionResult.signal` values. -/
inductive Signal
  | captcha
  | block_403
  | redirect
  | empty_page
  | missing_data
  | none
  deriving DecidableEq, Repr

/-- `DetectionResult` — the classification verdict.  The source also carries
an informational `details` string alongside; it is presentational text and
not part of the verdict, so it is omitted here. -/
structure DetectionResult where
  detected : Bool
  signal : Signal
  deriving DecidableEq, Repr

/-- `pat` occurs as a contiguous run inside the character list. -/
def hasSubList (pat : List Char) : List Char → Bool
  | [] => pat.isEmpty
  | c :: rest => pat.isPrefixOf (c :: rest) || hasSubList pat rest

/-- Case-insensitive substring test — the model of a `/literal/i.test(s)`
regex-literal test (all the patterns below are literal alternations):
both sides are lower-cased character-wise, then searched. -/
def hasCI (s pat : String) : Bool :=
  hasSubList (pat.data.map Char.toLower) (s.data.map Char.toLower)

/-- Check 1: `/baxia-dialog|nc_wrapper|captcha/i.test(content)`. -/
def captchaHit (content : String) : Bool :=
  hasCI content "baxia-dialog" || hasCI content "nc_wrapper" || hasCI content "captcha"

/-- Check 2: `status === 403 || status === 429`, on the nullable response. -/
def blockHit (status : Option Nat) : Bool :=
  match status with
  | Option.some s => s == 403 || s == 429
  | Option.none => false

/-- Check 3: `/sec\.|verify/i.test(url)`. -/
def redirectHit (url : String) : Bool :=
  hasCI url "sec." || hasCI url "verify"

/-- Check 5's guard: `/<h1/i.test(content) || /product/i.test(content)`. -/
def hasProductStructure (content : String) : Bool :=
  hasCI content "<h1" || hasCI content "product"

/-- `checkDetection(page, response)` from `src/browser/detection.ts`, as a
pure function of the page content (`page.content()`, a failed read yielding
`''`), the optional HTTP status (`response?.status()`) and the current URL
(`page.url()`).  The five checks run in source order; the first match wins. -/
def checkDetection (content : String) (status : Option Nat) (url : String) :
    DetectionResult :=
  if captchaHit content then { detected := true, signal := Signal.captcha }
  else if blockHit status then { detected := true, signal := Signal.block_403 }
  else if redirectHit url then { detected := true, signal := Signal.redirect }
  else if content.length < 500 then { detected := true, signal := Signal.empty_page }
  else if !hasProductStructure content then { detected := true, signal := Signal.missing_data }
  else { detected := false, signal := Signal.none }

/-- C5.  Classifier priority: the checks are evaluated in the fixed order
captcha markup, HTTP 403/429, verification-redirect URL, short content,
missing product structure, and the verdict is that of the first matching
check; when none matches the verdict is not-detected with signal `none`.
In particular captcha markup wins over any HTTP status or content length. -/
theorem checkDetection_priority (content : String) (status : Option Nat) (url : String) :
    (captchaHit content = true →
      checkDetection content status url = { detected := true, signal := Signal.captcha })
    ∧ (captchaHit content = false → blockHit status = true →
      checkDetection content status url = { detected := true, signal := Signal.block_403 })
    ∧ (captchaHit content = false → blockHit status = false → redirectHit url = true →
      checkDetection content status url = { detected := true, signal := Signal.redirect })
    ∧ (captchaHit content = false → blockHit status = false → redirectHit url = false →
      content.length < 500 →
      checkDetection content status url = { detected := true, signal := Signal.empty_page })
    ∧ (captchaHit content = false → blockHit status = false → redirectHit url = false →
      ¬ content.length < 500 → hasProductStructure content = false →
      checkDetection content status url = { detected := true, signal := Signal.missing_data })
    ∧ (captchaHit content = false → blockHit status = false → redirectHit url = false →
      ¬ content.length < 500 → hasProductStructure content = true →
      checkDetection content status url = { detected := false, signal := Signal.none }) := by
  refine ⟨?_, ?_, ?_, ?_, ?_, ?_⟩ <;> intros <;> simp_all [checkDetection]

/-- C5 witness: a page containing captcha markup is classified `captcha` even
under HTTP 403; without captcha markup the same status yields `block_403`. -/
theorem checkDetection_priority_witness :
    checkDetection "captcha" (Option.some 403) "https://x.test"
      = { detected := true, signal := Signal.captcha }
    ∧ checkDetection "" (Option.some 403) "https://x.test"
      = { detected := true, signal := Signal.block_403 } :=
  ⟨(checkDetection_priority "captcha" (Option.some 403) "https://x.test").1 (by decide),
   (checkDetection_priority "" (Option.some 403) "https://x.test").2.1
     (by decide) (by decide)⟩

/-! ## Poll cycle (src/monitor/poller.ts)

`startMonitoring` closes over the mutable engine state: the failure counters
(modelled above as `CooldownState`), `stateMap`, `alertCooldowns` and the
daily digest counters.  `pollCycle`'s inner loop visits the watch targets in
order; the per-target work is modelled below, with the external collaborators
(`page.goto`, `checkDetection` inputs, `extractProductData`) supplied as a
`FetchOutcome` per target, and the outward-visible actions (history writes,
Telegram messages, the cooldown sleep) recorded as an `Event` trace.  The
jittered pre-fetch delay and log lines carry no claim-relevant data and are
not recorded. -/

/-- The fields of `extractProductData`'s result consumed by the poller
(`src/scraper/product.ts` is an external extraction collaborator). -/
structure ProductData where
  stockStatus : StockStatus
  price : Option String
  title : Option String
  deriving DecidableEq, Repr

/-- The configuration knobs the poll cycle reads. -/
structure PollConfig where
  /-- `config.detection.cooldownMs` -/
  baseCooldownMs : Nat
  /-- `config.detection.maxRetries` -/
  maxRetries : Nat
  /-- `telegram.alertCooldownMs` -/
  alertCooldownMs : Nat
  deriving Repr

/-- `StockEvent` from `src/monitor/history.ts`. -/
structure StockEvent where
  timestamp : String
  url : String
  title : Option String
  previousStatus : Option StockStatus
  newStatus : StockStatus
  price : Option String
  transition : TransitionType
  deriving DecidableEq, Repr

/-- Outward-visible actions of a poll cycle, in order of occurrence:
`history e` is `logStockEvent(e, historyFile)` (one appended line),
`restockAlert url` is the `formatRestockAlert` Telegram message,
`pauseNote url` is the "Monitoring paused — detection event" Telegram
message, and `cooldownSleep ms` is the cooldown `setTimeout` sleep. -/
inductive Event
  | history (e : StockEvent)
  | restockAlert (url : String)
  | pauseNote (url : String)
  | cooldownSleep (ms : Nat)
  deriving DecidableEq, Repr

/-- The engine state owned by `startMonitoring`'s closure. -/
structure PollerState where
  cooldown : CooldownState
  stateMap : List (String × StockState)
  alertCooldowns : List (String × Nat)
  dailyRestocks : Nat
  dailySoldOuts : Nat
  dailyErrors : Nat
  deriving Repr

/-- JavaScript `Map.set`: overwrite the existing entry or append a new one. -/
def setKV {α : Type} : List (String × α) → String → α → List (String × α)
  | [], k, v => [(k, v)]
  | (k', v') :: rest, k, v =>
    if k' = k then (k, v) :: rest else (k', v') :: setKV rest k v

/-- `handleDetectionEvent(url, details)` (poller.ts lines 264–288): bump the
failure counters (`handleDetectionStep`), `dailyErrors++`, then send the
pause notification and only afterwards sleep `currentCooldownMs`.
Closing/recreating the browser context has no claim-relevant state. -/
def handleDetectionEvent (cfg : PollConfig) (url : String) (ps : PollerState) :
    PollerState × List Event :=
  let cool := handleDetectionStep cfg.maxRetries ps.cooldown
  ({ ps with cooldown := cool, dailyErrors := ps.dailyErrors + 1 },
   [Event.pauseNote url, Event.cooldownSleep cool.currentCooldownMs])

/-- The `newState` object literal of poller.ts lines 199–206 (before the
restock/sold-out branches overwrite `lastTransition`):
`lastTransition: previous?.lastTransition ?? null`. -/
def cleanNewState (nowIso : String) (url : String) (data : ProductData)
    (previous : Option StockState) : StockState :=
  { url := url, status := data.stockStatus, price := data.price,
    title := data.title, lastChecked := nowIso,
    lastTransition :=
      match previous with
      | Option.none => Option.none
      | Option.some prev => prev.lastTransition }

/-- `previous?.status ?? null` for the history entry. -/
def previousStatusOf (previous : Option StockState) : Option StockStatus :=
  match previous with
  | Option.none => Option.none
  | Option.some prev => Option.some prev.status

/-- The clean-fetch body of the inner loop (poller.ts lines 191–255): reset
the failure counters, compute the transition against the previous state, on
`restock` write a history line and — when the per-URL alert cooldown has
elapsed (`Date.now() - lastAlert > alertCooldownMs`) — send the restock
alert and stamp the cooldown map; on `sold_out` write a history line only;
finally store the new state.  `now` is the `Date.now()` reading and `nowIso`
the ISO timestamp string of this step. -/
def processClean (cfg : PollConfig) (now : Nat) (nowIso : String)
    (url : String) (data : ProductData) (ps : PollerState) :
    PollerState × List Event :=
  let cool := cleanReset cfg.baseCooldownMs ps.cooldown
  let previous := List.lookup url ps.stateMap
  let base := cleanNewState nowIso url data previous
  match detectTransition previous base with
  | TransitionType.restock =>
    let newState := { base with lastTransition := Option.some nowIso }
    let ev : StockEvent :=
      { timestamp := nowIso, url := url, title := data.title,
        previousStatus := previousStatusOf previous,
        newStatus := data.stockStatus, price := data.price,
        transition := TransitionType.restock }
    let lastAlert := (List.lookup url ps.alertCooldowns).getD 0
    if now - lastAlert > cfg.alertCooldownMs then
      ({ ps with
          cooldown := cool
          stateMap := setKV ps.stateMap url newState
          alertCooldowns := setKV ps.alertCooldowns url now
          dailyRestocks := ps.dailyRestocks + 1 },
       [Event.history ev, Event.restockAlert url])
    else
      ({ ps with
          cooldown := cool
          stateMap := setKV ps.stateMap url newState
          dailyRestocks := ps.dailyRestocks + 1 },
       [Event.history ev])
  | TransitionType.sold_out =>
    let newState := { base with lastTransition := Option.some nowIso }
    let ev : StockEvent :=
      { timestamp := nowIso, url := url, title := data.title,
        previousStatus := previousStatusOf previous,
        newStatus := data.stockStatus, price := data.price,
        transition := TransitionType.sold_out }
    ({ ps with
        cooldown := cool
        stateMap := setKV ps.stateMap url newState
        dailySoldOuts := ps.dailySoldOuts + 1 },
     [Event.history ev])
  | TransitionType.none =>
    ({ ps with cooldown := cool, stateMap := setKV ps.stateMap url base }, [])

/-- The observable outcome of one `page.goto` plus classification for one
target: a navigation error (the `catch` around `page.goto`), or a loaded
page with its content, HTTP status, final URL and extracted product data. -/
inductive FetchOutcome
  | navError (message : String)
  | loaded (content : String) (status : Option Nat) (currentUrl : String)
      (data : ProductData)

/-- Whether the target's fetch ends in `handleDetectionEvent` + `break`:
navigation errors are treated exactly like detections (poller.ts lines
178–189). -/
def outcomeDetected : FetchOutcome → Bool
  | FetchOutcome.navError _ => true
  | FetchOutcome.loaded content status currentUrl _ =>
    (checkDetection content status currentUrl).detected

/-- The inner `for (const url of monitoring.urls)` loop of `pollCycle`
(poller.ts lines 163–256): each target is fetched in order; a navigation
error or detection verdict runs `handleDetectionEvent` and leaves the loop
(`break`), abandoning the remaining targets; a clean target runs the
clean-fetch body and the loop continues. -/
def pollTargets (cfg : PollConfig) (now : Nat) (nowIso : String) :
    List (String × FetchOutcome) → PollerState → PollerState × List Event
  | [], ps => (ps, [])
  | (url, out) :: rest, ps =>
    match out with
    | FetchOutcome.navError _ => handleDetectionEvent cfg url ps
    | FetchOutcome.loaded content status currentUrl data =>
      if (checkDetection content status currentUrl).detected then
        handleDetectionEvent cfg url ps
      else
        let pc := processClean cfg now nowIso url data ps
        let rec2 := pollTargets cfg now nowIso rest pc.1
        (rec2.1, pc.2 ++ rec2.2)

/-- Every branch of the clean-fetch body resets the failure counters to
`(0, base)`. -/
theorem processClean_cooldown (cfg : PollConfig) (now : Nat) (nowIso : String)
    (url : String) (data : ProductData) (ps : PollerState) :
    (processClean cfg now nowIso url data ps).1.cooldown
      = { consecutiveFailures := 0, currentCooldownMs := cfg.baseCooldownMs } := by
  cases htr : detectTransition (List.lookup url ps.stateMap)
      (cleanNewState nowIso url data (List.lookup url ps.stateMap)) with
  | restock =>
    by_cases halert : now - (List.lookup url ps.alertCooldowns).getD 0 > cfg.alertCooldownMs <;>
      simp [processClean, htr, halert, cleanReset]
  | sold_out => simp [processClean, htr, cleanReset]
  | none => simp [processClean, htr, cleanReset]

/-- A detected (or navigation-error) target runs `handleDetectionEvent` and
abandons the rest of the cycle. -/
theorem pollTargets_detected_head (cfg : PollConfig) (now : Nat) (nowIso : String)
    (u : String) (o : FetchOutcome) (rest : List (String × FetchOutcome))
    (ps : PollerState) (hdet : outcomeDetected o = true) :
    pollTargets cfg now nowIso ((u, o) :: rest) ps = handleDetectionEvent cfg u ps := by
  cases o with
  | navError msg => rfl
  | loaded content status currentUrl data =>
    have h : (checkDetection content status currentUrl).detected = true := hdet
    simp [pollTargets, h]

/-- A clean prefix of the target list composes: the loop runs it to
completion and continues with the remaining targets from the reached state. -/
theorem pollTargets_clean_prefix (cfg : PollConfig) (now : Nat) (nowIso : String)
    (ts : List (String × FetchOutcome)) (ps : PollerState)
    (hclean : ∀ p ∈ ts, outcomeDetected p.2 = false)
    (tail : List (String × FetchOutcome)) :
    pollTargets cfg now nowIso (ts ++ tail) ps
      = ((pollTargets cfg now nowIso tail (pollTargets cfg now nowIso ts ps).1).1,
         (pollTargets cfg now nowIso ts ps).2
           ++ (pollTargets cfg now nowIso tail (pollTargets cfg now nowIso ts ps).1).2) := by
  induction ts generalizing ps with
  | nil => simp [pollTargets]
  | cons hd tl ih =>
    obtain ⟨v, ov⟩ := hd
    have hov : outcomeDetected ov = false := hclean (v, ov) (List.mem_cons_self _ _)
    have hclean' : ∀ p ∈ tl, outcomeDetected p.2 = false :=
      fun p hp => hclean p (List.mem_cons_of_mem _ hp)
    cases ov with
    | navError msg => simp [outcomeDetected] at hov
    | loaded content status currentUrl data =>
      have hd2 : (checkDetection content status currentUrl).detected = false := hov
      simp only [List.cons_append, pollTargets, hd2, Bool.false_eq_true, if_false,
        List.append_eq]
      rw [ih _ hclean']
      simp [List.append_assoc]

/-- After a nonempty run of clean targets the failure counters sit at
`(0, base)`. -/
theorem pollTargets_clean_cooldown (cfg : PollConfig) (now : Nat) (nowIso : String)
    (ts : List (String × FetchOutcome)) (ps : PollerState)
    (hclean : ∀ p ∈ ts, outcomeDetected p.2 = false) (hne : ts ≠ []) :
    (pollTargets cfg now nowIso ts ps).1.cooldown
      = { consecutiveFailures := 0, currentCooldownMs := cfg.baseCooldownMs } := by
  induction ts generalizing ps with
  | nil => exact absurd rfl hne
  | cons hd tl ih =>
    obtain ⟨v, ov⟩ := hd
    have hov : outcomeDetected ov = false := hclean (v, ov) (List.mem_cons_self _ _)
    have hclean' : ∀ p ∈ tl, outcomeDetected p.2 = false :=
      fun p hp => hclean p (List.mem_cons_of_mem _ hp)
    cases ov with
    | navError msg => simp [outcomeDetected] at hov
    | loaded content status currentUrl data =>
      have hd2 : (checkDetection content status currentUrl).detected = false := hov
      by_cases htl : tl = []
      · subst htl
        simp only [pollTargets, hd2, Bool.false_eq_true, if_false]
        exact processClean_cooldown cfg now nowIso v data ps
      · simp only [pollTargets, hd2, Bool.false_eq_true, if_false]
        exact ih _ hclean' htl

/-- C6.  Detection aborts the cycle: when the targets after a clean prefix
start with one whose fetch is detected (or errors), the cycle's result is
`handleDetectionEvent` applied at the state reached after the prefix — the
remaining targets are never visited (the right-hand side does not depend on
them) — `consecutiveFailures` rises by exactly 1 (to 1 when the prefix is
nonempty, since clean fetches reset it to 0), and the emitted trace ends
with the pause notification immediately followed by the cooldown sleep. -/
theorem detection_aborts_cycle (cfg : PollConfig) (now : Nat) (nowIso : String)
    (ts : List (String × FetchOutcome)) (u : String) (o : FetchOutcome)
    (rest : List (String × FetchOutcome)) (ps : PollerState)
    (hclean : ∀ p ∈ ts, outcomeDetected p.2 = false)
    (hdet : outcomeDetected o = true) :
    pollTargets cfg now nowIso (ts ++ (u, o) :: rest) ps
      = ((handleDetectionEvent cfg u (pollTargets cfg now nowIso ts ps).1).1,
         (pollTargets cfg now nowIso ts ps).2
           ++ [Event.pauseNote u,
               Event.cooldownSleep
                 ((handleDetectionEvent cfg u
                   (pollTargets cfg now nowIso ts ps).1).1.cooldown.currentCooldownMs)])
    ∧ (pollTargets cfg now nowIso (ts ++ (u, o) :: rest) ps).1.cooldown.consecutiveFailures
        = (pollTargets cfg now nowIso ts ps).1.cooldown.consecutiveFailures + 1
    ∧ (ts ≠ [] →
        (pollTargets cfg now nowIso (ts ++ (u, o) :: rest) ps).1.cooldown.consecutiveFailures
          = 1) := by
  have hsplit := pollTargets_clean_prefix cfg now nowIso ts ps hclean ((u, o) :: rest)
  have hhead := pollTargets_detected_head cfg now nowIso u o rest
    (pollTargets cfg now nowIso ts ps).1 hdet
  refine ⟨?_, ?_, ?_⟩
  · rw [hsplit, hhead]
    rfl
  · rw [hsplit, hhead]
    rfl
  · intro hne
    rw [hsplit, hhead]
    have hcool := pollTargets_clean_cooldown cfg now nowIso ts ps hclean hne
    simp [handleDetectionEvent, handleDetectionStep, hcool]

/-- A page whose fetch is classified clean: long enough, no captcha markup,
product structure present. -/
def cleanContent : String := String.mk (List.replicate 500 'a') ++ "<h1 product"

/-- A concrete clean target for the cycle witnesses. -/
def cleanTarget : String × FetchOutcome :=
  ("https://a.test", FetchOutcome.loaded cleanContent Option.none "https://a.test"
    { stockStatus := StockStatus.out_of_stock, price := Option.none, title := Option.none })

/-- Concrete config: base cooldown 300000 ms, retry threshold 3, alert
window 3600000 ms. -/
def cfgW : PollConfig :=
  { baseCooldownMs := 300000, maxRetries := 3, alertCooldownMs := 3600000 }

/-- A fresh engine state. -/
def psW : PollerState :=
  { cooldown := { consecutiveFailures := 0, currentCooldownMs := 300000 },
    stateMap := [], alertCooldowns := [],
    dailyRestocks := 0, dailySoldOuts := 0, dailyErrors := 0 }

set_option maxRecDepth 40000 in
/-- C6 witness: one clean target, then a navigation error on the second
target with one more target pending — the counter lands at exactly 1. -/
theorem detection_aborts_cycle_witness :
    (pollTargets cfgW 1000 "2026-01-02T00:00:00Z"
      ([cleanTarget] ++ ("https://b.test", FetchOutcome.navError "timeout")
        :: [("https://c.test", FetchOutcome.navError "later")])
      psW).1.cooldown.consecutiveFailures = 1 :=
  (detection_aborts_cycle cfgW 1000 "2026-01-02T00:00:00Z" [cleanTarget]
    "https://b.test" (FetchOutcome.navError "timeout")
    [("https://c.test", FetchOutcome.navError "later")] psW
    (by decide) rfl).2.2 (List.cons_ne_nil _ _)

/-- C7.  Clean-poll outputs: on a clean poll of one target, a history line
is appended iff the computed transition is `restock` or `sold_out`, and a
(restock) notification is sent iff the transition is `restock` and the last
notification for that URL is more than the per-URL alert window ago;
`sold_out` and `none` never notify. -/
theorem transition_outputs (cfg : PollConfig) (now : Nat) (nowIso : String)
    (url : String) (data : ProductData) (ps : PollerState) :
    ((∃ e, Event.history e ∈ (processClean cfg now nowIso url data ps).2) ↔
      (detectTransition (List.lookup url ps.stateMap)
          (cleanNewState nowIso url data (List.lookup url ps.stateMap))
            = TransitionType.restock
       ∨ detectTransition (List.lookup url ps.stateMap)
          (cleanNewState nowIso url data (List.lookup url ps.stateMap))
            = TransitionType.sold_out))
    ∧ ((∃ u', Event.restockAlert u' ∈ (processClean cfg now nowIso url data ps).2) ↔
      (detectTransition (List.lookup url ps.stateMap)
          (cleanNewState nowIso url data (List.lookup url ps.stateMap))
            = TransitionType.restock
       ∧ now - (List.lookup url ps.alertCooldowns).getD 0 > cfg.alertCooldownMs)) := by
  cases htr : detectTransition (List.lookup url ps.stateMap)
      (cleanNewState nowIso url data (List.lookup url ps.stateMap)) with
  | restock =>
    by_cases halert : now - (List.lookup url ps.alertCooldowns).getD 0 > cfg.alertCooldownMs
    · simp [processClean, htr, halert]
    · simp [processClean, htr, halert]
  | sold_out => simp [processClean, htr]
  | none => simp [processClean, htr]

/-- Product data for a restock observation. -/
def dataW : ProductData :=
  { stockStatus := StockStatus.in_stock, price := Option.some "S$79.90",
    title := Option.some "Booster Box" }

/-- Engine state that has previously seen the target out of stock and never
alerted. -/
def psW2 : PollerState :=
  { cooldown := { consecutiveFailures := 0, currentCooldownMs := 300000 },
    stateMap := [("https://a.test", sampleState StockStatus.out_of_stock)],
    alertCooldowns := [],
    dailyRestocks := 0, dailySoldOuts := 0, dailyErrors := 0 }

/-- C7 witness: an out-of-stock → in-stock observation with a cold alert map
produces both a history entry and a notification. -/
theorem transition_outputs_witness :
    (∃ e, Event.history e ∈
      (processClean cfgW 4000000 "2026-01-02T00:00:00Z" "https://a.test" dataW psW2).2)
    ∧ (∃ u', Event.restockAlert u' ∈
      (processClean cfgW 4000000 "2026-01-02T00:00:00Z" "https://a.test" dataW psW2).2) :=
  ⟨(transition_outputs cfgW 4000000 "2026-01-02T00:00:00Z" "https://a.test" dataW psW2).1.mpr
    (Or.inl (by decide)),
   (transition_outputs cfgW 4000000 "2026-01-02T00:00:00Z" "https://a.test" dataW psW2).2.mpr
    ⟨by decide, by decide⟩⟩

/-! ## Initial seeding pass (src/monitor/poller.ts lines 83–113)

`startMonitoring` visits every watch target once before the poll loop.  A
successful fetch+extract stores a `StockState` into `stateMap`; the `catch`
branch only pushes an `'unknown'` row into the printed console table and
logs a warning — it does NOT touch `stateMap`.  The fetch+extract of each
target is supplied as `fetch : String → Option ProductData` (`Option.none`
is the thrown-error case). -/

/-- The state stored for a successfully fetched target (poller.ts lines
89–97): `lastTransition: null`. -/
def seededState (nowIso : String) (u : String) (d : ProductData) : StockState :=
  { url := u, status := d.stockStatus, price := d.price, title := d.title,
    lastChecked := nowIso, lastTransition := Option.none }

/-- One iteration of the initial pass. -/
def initStep (fetch : String → Option ProductData) (nowIso : String)
    (m : List (String × StockState)) (url : String) : List (String × StockState) :=
  match fetch url with
  | Option.some data => setKV m url (seededState nowIso url data)
  | Option.none => m

/-- The whole initial pass over the watch targets, starting from the empty
`stateMap`. -/
def initSeed (urls : List String) (fetch : String → Option ProductData)
    (nowIso : String) : List (String × StockState) :=
  urls.foldl (initStep fetch nowIso) []

theorem lookup_setKV_self {α : Type} (m : List (String × α)) (k : String) (v : α) :
    List.lookup k (setKV m k v) = Option.some v := by
  induction m with
  | nil => simp [setKV, List.lookup]
  | cons hd tl ih =>
    obtain ⟨k0, v0⟩ := hd
    by_cases h : k0 = k
    · subst h; simp [setKV, List.lookup]
    · have hne : (k == k0) = false := beq_eq_false_iff_ne.mpr (Ne.symm h)
      simp [setKV, h, List.lookup, hne, ih]

theorem lookup_setKV_ne {α : Type} (m : List (String × α)) (k k' : String) (v : α)
    (h : k' ≠ k) : List.lookup k' (setKV m k v) = List.lookup k' m := by
  induction m with
  | nil => simp [setKV, List.lookup, beq_eq_false_iff_ne.mpr h]
  | cons hd tl ih =>
    obtain ⟨k0, v0⟩ := hd
    by_cases h0 : k0 = k
    · subst h0
      simp [setKV, List.lookup, beq_eq_false_iff_ne.mpr h]
    · simp [setKV, h0, List.lookup, ih]

/-- Targets whose fetch fails are never written during the initial pass. -/
theorem initSeed_foldl_none (fetch : String → Option ProductData) (nowIso : String)
    (u : String) (h : fetch u = Option.none) (urls : List String) :
    ∀ m : List (String × StockState),
      List.lookup u (urls.foldl (initStep fetch nowIso) m) = List.lookup u m := by
  induction urls with
  | nil => intro m; rfl
  | cons w rest ih =>
    intro m
    rw [List.foldl_cons, ih]
    by_cases hw : w = u
    · subst hw; simp [initStep, h]
    · cases hfw : fetch w with
      | none => simp [initStep, hfw]
      | some d =>
        simp only [initStep, hfw]
        exact lookup_setKV_ne m w u (seededState nowIso w d) (fun he => hw he.symm)

/-- Targets whose fetch succeeds end up seeded. -/
theorem initSeed_foldl_some (fetch : String → Option ProductData) (nowIso : String)
    (u : String) (d : ProductData) (h : fetch u = Option.some d) (urls : List String) :
    ∀ m : List (String × StockState),
      (u ∈ urls ∨ List.lookup u m = Option.some (seededState nowIso u d)) →
      List.lookup u (urls.foldl (initStep fetch nowIso) m)
        = Option.some (seededState nowIso u d) := by
  induction urls with
  | nil =>
    intro m hm
    rcases hm with h1 | h2
    · simp at h1
    · simpa using h2
  | cons w rest ih =>
    intro m hm
    rw [List.foldl_cons]
    by_cases hw : w = u
    · subst hw
      apply ih
      right
      simp only [initStep, h]
      exact lookup_setKV_self m w (seededState nowIso w d)
    · rcases hm with h1 | h2
      · rcases List.mem_cons.mp h1 with heq | h1'
        · exact absurd heq.symm hw
        · exact ih _ (Or.inl h1')
      · apply ih
        right
        cases hfw : fetch w with
        | none => simpa [initStep, hfw] using h2
        | some dw =>
          simp only [initStep, hfw]
          rw [lookup_setKV_ne m w u (seededState nowIso w dw) (fun he => hw he.symm)]
          exact h2

/-- C9 counterexample: with a single target whose initial fetch fails, the
`StockState` table stays empty — there is no entry at all, in particular no
entry with status `unknown` (the `'unknown'` cell goes only to the printed
table). -/
theorem init_seed_failure_counterexample :
    initSeed ["https://a.test"] (fun _ => Option.none) "2026-01-01T00:00:00Z" = []
    ∧ List.lookup "https://a.test"
        (initSeed ["https://a.test"] (fun _ => Option.none) "2026-01-01T00:00:00Z")
      = Option.none := ⟨rfl, rfl⟩

/-- C9 (amended).  After the initial pass, a target whose fetch or
extraction failed has NO `StockState` entry (it joins the table only on its
first clean poll); a target whose initial fetch succeeded is seeded with the
extracted data and `lastTransition: null`. -/
theorem init_seed_spec (urls : List String) (fetch : String → Option ProductData)
    (nowIso : String) (u : String) :
    (fetch u = Option.none → List.lookup u (initSeed urls fetch nowIso) = Option.none)
    ∧ (∀ d, fetch u = Option.some d → u ∈ urls →
        List.lookup u (initSeed urls fetch nowIso)
          = Option.some (seededState nowIso u d)) := by
  constructor
  · intro h
    rw [initSeed, initSeed_foldl_none fetch nowIso u h urls []]
    rfl
  · intro d h hmem
    exact initSeed_foldl_some fetch nowIso u d h urls [] (Or.inl hmem)

/-- A fetch oracle that succeeds on one URL and fails on the rest. -/
def fetchW : String → Option ProductData :=
  fun url => if url = "https://ok.test" then Option.some dataW else Option.none

/-- C9 witness (for the amended claim): the failing target has no entry, the
succeeding one is seeded. -/
theorem init_seed_spec_witness :
    List.lookup "https://fail.test"
      (initSeed ["https://ok.test", "https://fail.test"] fetchW "2026-01-01T00:00:00Z")
      = Option.none
    ∧ List.lookup "https://ok.test"
      (initSeed ["https://ok.test", "https://fail.test"] fetchW "2026-01-01T00:00:00Z")
      = Option.some (seededState "2026-01-01T00:00:00Z" "https://ok.test" dataW) :=
  ⟨(init_seed_spec ["https://ok.test", "https://fail.test"] fetchW
      "2026-01-01T00:00:00Z" "https://fail.test").1 (by decide),
   (init_seed_spec ["https://ok.test", "https://fail.test"] fetchW
      "2026-01-01T00:00:00Z" "https://ok.test").2 dataW (by decide) (by decide)⟩

/-! ## Account store (src/store/accounts.ts, src/store/types.ts)

The store keeps the whole account list in one vault-encrypted file;
`load`/`save` round the operations below, so each operation is modelled as a
pure function of the decrypted list — the list an operation returns is
exactly what `save` persists. -/

/-- `loginType` of `Account` (src/store/types.ts). -/
inductive LoginType
  | phone
  deriving DecidableEq, Repr

/-- The proxy descriptor of an `Account`. -/
structure Proxy where
  host : String
  port : Nat
  username : String
  password : String
  deriving DecidableEq, Repr

/-- `Account` from src/store/types.ts. -/
structure Account where
  id : String
  loginId : String
  loginType : LoginType
  proxy : Option Proxy
  paymentLabel : String
  createdAt : String
  lastLoginAt : Option String
  sessionFile : Option String
  deriving DecidableEq, Repr

/-- Leading whitespace skipped by JavaScript `parseInt`. -/
def isJsWhitespace (c : Char) : Bool :=
  c == ' ' || c == '\t' || c == '\n' || c == '\r'

/-- The longest leading run of decimal digits, as a number; `Option.none`
when there is no digit (`parseInt` then returns `NaN`). -/
def digitsVal (cs : List Char) : Option Nat :=
  let ds := cs.takeWhile Char.isDigit
  if ds.isEmpty then Option.none
  else Option.some (ds.foldl (fun a c => a * 10 + (c.toNat - 48)) 0)

/-- JavaScript `parseInt(s, 10)`: skip leading whitespace, read an optional
sign, then take the longest run of decimal digits, ignoring any trailing
characters; `NaN` (here `Option.none`) only when no digit was read. -/
def jsParseInt (s : String) : Option Int :=
  match s.data.dropWhile isJsWhitespace with
  | '-' :: rest => (digitsVal rest).map (fun n => -(n : Int))
  | '+' :: rest => (digitsVal rest).map (fun n => (n : Int))
  | rest => (digitsVal rest).map (fun n => (n : Int))

/-- `AccountStore.findByIdentifier(identifier)` (accounts.ts lines 49–56)
over the decrypted account list: try the 1-based positional index parsed by
`parseInt(identifier, 10)` when in range, else exact match on `loginId`. -/
def findByIdentifier (accounts : List Account) (identifier : String) :
    Option Account :=
  match jsParseInt identifier with
  | Option.some index =>
    if 1 ≤ index ∧ index ≤ (accounts.length : Int) then
      accounts[(index - 1).toNat]?
    else
      accounts.find? (fun a => a.loginId == identifier)
  | Option.none => accounts.find? (fun a => a.loginId == identifier)

/-- The claim's reading of "the string parses as an integer `k`": the whole
string is an optional-sign decimal numeral.  (Spec-side notion, for
comparison with the `parseInt`-prefix behaviour of the code.) -/
def isDecimalNumeral (s : String) : Bool :=
  match s.data with
  | [] => false
  | '-' :: rest => !rest.isEmpty && rest.all Char.isDigit
  | '+' :: rest => !rest.isEmpty && rest.all Char.isDigit
  | cs => cs.all Char.isDigit

/-- A first sample account. -/
def acctA : Account :=
  { id := "id-1", loginId := "alice@x.com", loginType := LoginType.phone,
    proxy := Option.none, paymentLabel := "visa-1234",
    createdAt := "2026-01-01T00:00:00Z",
    lastLoginAt := Option.none, sessionFile := Option.none }

/-- A second sample account. -/
def acctB : Account :=
  { id := "id-2", loginId := "bob@x.com", loginType := LoginType.phone,
    proxy := Option.none, paymentLabel := "amex-9876",
    createdAt := "2026-01-02T00:00:00Z",
    lastLoginAt := Option.none, sessionFile := Option.none }

/-- C8 counterexample: `"2abc"` does not parse as an integer (it is not a
numeral) and matches no account's login identifier, so the claim's
otherwise-branch demands the exact-match result (here: nothing) — but the
code returns the 2nd account, because `parseInt("2abc", 10) = 2`. -/
theorem findByIdentifier_counterexample :
    isDecimalNumeral "2abc" = false
    ∧ List.find? (fun a => a.loginId == "2abc") [acctA, acctB] = Option.none
    ∧ findByIdentifier [acctA, acctB] "2abc" = Option.some acctB := by
  decide

/-- C8 (amended).  Account resolution with JavaScript `parseInt` semantics:
when `parseInt(s, 10)` yields `k` (the longest leading digit run after
optional whitespace and sign — so `"2abc"` also counts as 2) with
`1 ≤ k ≤ length`, the k-th account (1-based, current order) is returned;
when `parseInt` yields `NaN` or `k` is out of range, the result is the first
account whose login identifier equals `s` exactly, or nothing. -/
theorem findByIdentifier_spec (accounts : List Account) (s : String) :
    (∀ k : Int, jsParseInt s = Option.some k →
      1 ≤ k → k ≤ (accounts.length : Int) →
      findByIdentifier accounts s = accounts[(k - 1).toNat]?)
    ∧ (jsParseInt s = Option.none →
      findByIdentifier accounts s = accounts.find? (fun a => a.loginId == s))
    ∧ (∀ k : Int, jsParseInt s = Option.some k →
      ¬ (1 ≤ k ∧ k ≤ (accounts.length : Int)) →
      findByIdentifier accounts s = accounts.find? (fun a => a.loginId == s)) := by
  refine ⟨?_, ?_, ?_⟩
  · intro k hk h1 h2
    simp [findByIdentifier, hk, h1, h2]
  · intro h
    simp [findByIdentifier, h]
  · intro k hk hnot
    simp [findByIdentifier, hk, hnot]

/-- C8 witness: `"2"` resolves positionally, `"alice@x.com"` and the
out-of-range `"7"` fall through to exact login-identifier match. -/
theorem findByIdentifier_spec_witness :
    findByIdentifier [acctA, acctB] "2" = [acctA, acctB][((2 : Int) - 1).toNat]?
    ∧ findByIdentifier [acctA, acctB] "alice@x.com"
        = List.find? (fun a => a.loginId == "alice@x.com") [acctA, acctB]
    ∧ findByIdentifier [acctA, acctB] "7"
        = List.find? (fun a => a.loginId == "7") [acctA, acctB] :=
  ⟨(findByIdentifier_spec [acctA, acctB] "2").1 2 (by decide) (by decide) (by decide),
   (findByIdentifier_spec [acctA, acctB] "alice@x.com").2.1 (by decide),
   (findByIdentifier_spec [acctA, acctB] "7").2.2 7 (by decide) (by decide)⟩

/-- The partial update object of `AccountStore.update`:
`Partial<Pick<Account, 'loginId' | 'loginType' | 'proxy' | 'paymentLabel'>>`
(an absent key is `Option.none`; note `proxy` may be set to `null`). -/
structure AccountUpdates where
  loginId : Option String
  loginType : Option LoginType
  proxy : Option (Option Proxy)
  paymentLabel : Option String
  deriving Repr

/-- The spread merge `{ ...accounts[idx], ...updates }`: every supplied key
overrides, everything else is kept. -/
def applyUpdates (a : Account) (u : AccountUpdates) : Account :=
  { a with
    loginId := u.loginId.getD a.loginId
    loginType := u.loginType.getD a.loginType
    proxy := u.proxy.getD a.proxy
    paymentLabel := u.paymentLabel.getD a.paymentLabel }

/-- `AccountStore.update(id, updates)` (accounts.ts lines 58–70): find the
first account with the id (`findIndex`), replace it in place by the spread
merge, persist the whole list (`save`), or throw `Account not found` when
the id is absent.  The `Except.ok` list is exactly what `save` writes. -/
def updateAccounts (accounts : List Account) (id : String) (u : AccountUpdates) :
    Except String (List Account) :=
  match accounts with
  | [] => Except.error ("Account not found: " ++ id)
  | a :: rest =>
    if a.id = id then Except.ok (applyUpdates a u :: rest)
    else
      match updateAccounts rest id u with
      | Except.ok rest' => Except.ok (a :: rest')
      | Except.error e => Except.error e

/-- `update` replaces exactly the first id-match by its merged version. -/
theorem updateAccounts_eq_set (accounts : List Account) (id : String)
    (u : AccountUpdates) :
    ∀ (i : Nat) (a : Account), accounts[i]? = Option.some a → a.id = id →
    (∀ j, j < i → (accounts[j]?).map Account.id ≠ Option.some id) →
    updateAccounts accounts id u = Except.ok (accounts.set i (applyUpdates a u)) := by
  induction accounts with
  | nil => intro i a hi _ _; simp at hi
  | cons b rest ih =>
    intro i a hi ha hfirst
    cases i with
    | zero =>
      simp only [List.getElem?_cons_zero, Option.some.injEq] at hi
      subst hi
      simp [updateAccounts, ha]
    | succ n =>
      have hb : b.id ≠ id := by simpa using hfirst 0 (Nat.succ_pos n)
      have hi' : rest[n]? = Option.some a := by simpa using hi
      have hfirst' : ∀ j, j < n → (rest[j]?).map Account.id ≠ Option.some id := by
        intro j hj
        simpa using hfirst (j + 1) (by omega)
      simp [updateAccounts, hb, ih n a hi' ha hfirst']

/-- C10.  Update frame property: when account `a` is the first entry with
the given id (position `i`), `update` persists exactly the list with entry
`i` replaced by the merged account: the length and every other position are
unchanged, and the merged account keeps `id`, `createdAt`, `lastLoginAt`
and `sessionFile` while taking each of `loginId`, `loginType`, `proxy`,
`paymentLabel` from the update when supplied and from `a` otherwise. -/
theorem update_frame (accounts : List Account) (id : String) (u : AccountUpdates)
    (i : Nat) (a : Account)
    (hi : accounts[i]? = Option.some a) (ha : a.id = id)
    (hfirst : ∀ j, j < i → (accounts[j]?).map Account.id ≠ Option.some id) :
    updateAccounts accounts id u = Except.ok (accounts.set i (applyUpdates a u))
    ∧ (accounts.set i (applyUpdates a u)).length = accounts.length
    ∧ (accounts.set i (applyUpdates a u))[i]? = Option.some (applyUpdates a u)
    ∧ (∀ j, j ≠ i → (accounts.set i (applyUpdates a u))[j]? = accounts[j]?)
    ∧ (applyUpdates a u).id = a.id
    ∧ (applyUpdates a u).createdAt = a.createdAt
    ∧ (applyUpdates a u).lastLoginAt = a.lastLoginAt
    ∧ (applyUpdates a u).sessionFile = a.sessionFile
    ∧ (applyUpdates a u).loginId = u.loginId.getD a.loginId
    ∧ (applyUpdates a u).loginType = u.loginType.getD a.loginType
    ∧ (applyUpdates a u).proxy = u.proxy.getD a.proxy
    ∧ (applyUpdates a u).paymentLabel = u.paymentLabel.getD a.paymentLabel := by
  have hlt : i < accounts.length := (List.getElem?_eq_some.mp hi).1
  refine ⟨updateAccounts_eq_set accounts id u i a hi ha hfirst,
    List.length_set accounts i (applyUpdates a u),
    List.getElem?_set_self hlt,
    fun j hj => List.getElem?_set_ne (Ne.symm hj),
    rfl, rfl, rfl, rfl, rfl, rfl, rfl, rfl⟩

/-- A partial update touching only `loginId` and `paymentLabel`. -/
def updB : AccountUpdates :=
  { loginId := Option.some "robert@x.com", loginType := Option.none,
    proxy := Option.none, paymentLabel := Option.some "visa-0000" }

/-- C10 witness: updating the 2nd account's login id and payment label
leaves the 1st account and the target's `id`/`createdAt` untouched in the
persisted list. -/
theorem update_frame_witness :
    updateAccounts [acctA, acctB] "id-2" updB
      = Except.ok ([acctA, acctB].set 1 (applyUpdates acctB updB))
    ∧ ([acctA, acctB].set 1 (applyUpdates acctB updB))[0]? = Option.some acctA
    ∧ (applyUpdates acctB updB).id = acctB.id
    ∧ (applyUpdates acctB updB).createdAt = acctB.createdAt
    ∧ (applyUpdates acctB updB).loginId = "robert@x.com" := by
  obtain ⟨h1, -, -, h4, h5, h6, -⟩ :=
    update_frame [acctA, acctB] "id-2" updB 1 acctB (by decide) (by decide)
      (by decide)
  exact ⟨h1, (h4 0 (by decide)).trans (by decide), h5, h6, by decide⟩

end Pokebot
